import Mathlib

/-!
Verification of the task-lifecycle / process-orchestration core of the
`jhn-yt-mp3-gui` video backend.

The definitions below are a shallow embedding, translated from:
  * `src/video-backend/utils/video-processor.js` — the yt-dlp stdout
    progress handling, exit classification and the timeout monitor;
  * the `TaskManager` class (shipped inside `src/README.md`) — the
    in-memory task registry;
  * `src/video-backend/routes/api.js` — `processVideoAsync`, the
    orchestration that drives the registry.

JavaScript numbers that appear in the progress path are modelled as `ℚ`
(all values arising here are finite decimals, on which JS float semantics
is exact); `NaN` is modelled as `none` of an `Option ℚ`.  `JSON.parse` is
modelled on the fragment the program actually receives — one flat object
per line with string keys and string/decimal-number values (no escapes,
no exponents, no nesting), or a bare string/number literal; property
access on a primitive yields `undefined` (`none`), and duplicate keys
resolve to the last occurrence, as in JS.
-/

namespace YtMp3

/-- A JavaScript value as it can appear in a decoded progress payload
field: a string or a (finite, decimal) number. -/
inductive JVal where
  | jstr : String → JVal
  | jnum : ℚ → JVal
  deriving Repr, DecidableEq

/-- The decoded progress payload, restricted to the two properties the
stdout handler reads: `progressInfo.status` and `progressInfo.percent`.
`none` models an absent property (`undefined`). -/
structure ProgressInfo where
  status : Option JVal
  percent : Option JVal
  deriving Repr, DecidableEq

/-- JS truthiness of an optional field value: `undefined`, `0` and the
empty string are falsy; every other string or number occurring here is
truthy. -/
def truthy : Option JVal → Bool
  | none => false
  | some (JVal.jstr s) => s != ""
  | some (JVal.jnum q) => q != 0

/-- Numeric value of a digit list (most significant first). -/
def digitsToNat (ds : List Char) : Nat :=
  ds.foldl (fun n c => 10 * n + (c.toNat - 48)) 0

/-- JS `parseFloat` on a character sequence: skip leading spaces, read an
optional sign and a decimal literal (`d+`, `d+.d*` or `.d+`), ignore any
trailing junk; `none` models `NaN`.  (Exponent forms never occur in the
modelled inputs and are not supported.) -/
def parseFloatChars (cs : List Char) : Option ℚ :=
  let cs1 := cs.dropWhile (fun c => c = ' ')
  let sp : Bool × List Char :=
    match cs1 with
    | '-' :: r => (true, r)
    | '+' :: r => (false, r)
    | _ => (false, cs1)
  let d1 := sp.2.takeWhile Char.isDigit
  let r1 := sp.2.dropWhile Char.isDigit
  let d2 : List Char :=
    match r1 with
    | '.' :: r => r.takeWhile Char.isDigit
    | _ => []
  if d1.isEmpty ∧ d2.isEmpty then none
  else
    let mag : ℚ := (digitsToNat d1 : ℚ) + (digitsToNat d2 : ℚ) / (10 : ℚ) ^ d2.length
    some (if sp.1 then -mag else mag)

/-- JS `parseFloat` applied to a payload field value.  A number argument
is stringified and re-parsed, which is the identity on the finite
decimals modelled here; a string argument is parsed by prefix. -/
def parseFloatJS : JVal → Option ℚ
  | JVal.jnum q => some q
  | JVal.jstr s => parseFloatChars s.toList

/-- JS `Math.round`: round half-up (towards `+∞`), i.e. the floor of
`q + 1/2`. -/
def jsRound (q : ℚ) : Int := Rat.floor (q + 1 / 2)

/-- Whitespace in the JS sense, restricted to the characters that can
occur on this stream. -/
def isJsSpace (c : Char) : Bool := c = ' ' ∨ c = '\t' ∨ c = '\n' ∨ c = '\r'

/-- JS `String.prototype.trim`: strip leading and trailing whitespace. -/
def jsTrim (s : String) : String :=
  String.mk (((s.toList.dropWhile isJsSpace).reverse.dropWhile isJsSpace).reverse)

/-- Split a character list at every newline, keeping empty segments —
the semantics of JS `split('\n')`. -/
def splitLines : List Char → List (List Char)
  | [] => [[]]
  | c :: rest =>
    match splitLines rest with
    | [] => [[]]
    | seg :: segs => if c = '\n' then [] :: seg :: segs else (c :: seg) :: segs

/-- JS `buf.split('\n')`. -/
def jsSplitNewline (s : String) : List String :=
  (splitLines s.toList).map String.mk

/-! ### Mini JSON decoder (model of `JSON.parse` on progress lines) -/

/-- The `\x7b` character. -/
def lbrace : Char := Char.ofNat 123

/-- The `\x7d` character. -/
def rbrace : Char := Char.ofNat 125

/-- Skip space characters. -/
def skipWs (cs : List Char) : List Char := cs.dropWhile (fun c => c = ' ')

/-- Body of a JSON string literal after the opening quote; escapes are
out of the modelled fragment. -/
def strBody : List Char → String → Option (String × List Char)
  | [], _ => none
  | '"' :: rest, acc => some (acc, rest)
  | '\\' :: _, _ => none
  | c :: rest, acc => strBody rest (acc.push c)

/-- A JSON string literal. -/
def strLit : List Char → Option (String × List Char)
  | '"' :: rest => strBody rest ""
  | _ => none

/-- A JSON number literal: optional minus sign, digits, optional
fractional part (JSON requires digits on both sides of the point). -/
def numLit (cs : List Char) : Option (ℚ × List Char) :=
  let sp : Bool × List Char :=
    match cs with
    | '-' :: r => (true, r)
    | _ => (false, cs)
  let d1 := sp.2.takeWhile Char.isDigit
  let r1 := sp.2.dropWhile Char.isDigit
  if d1.isEmpty then none
  else
    match r1 with
    | '.' :: r2 =>
      let d2 := r2.takeWhile Char.isDigit
      let r3 := r2.dropWhile Char.isDigit
      if d2.isEmpty then none
      else
        let mag : ℚ := (digitsToNat d1 : ℚ) + (digitsToNat d2 : ℚ) / (10 : ℚ) ^ d2.length
        some (if sp.1 then -mag else mag, r3)
    | _ =>
      let mag : ℚ := (digitsToNat d1 : ℚ)
      some (if sp.1 then -mag else mag, r1)

/-- A JSON scalar value: string or number. -/
def valLit (cs : List Char) : Option (JVal × List Char) :=
  match strLit cs with
  | some (s, r) => some (JVal.jstr s, r)
  | none =>
    match numLit cs with
    | some (q, r) => some (JVal.jnum q, r)
    | none => none

/-- Members of a JSON object after the opening brace (fuel-indexed; each
step consumes at least the key, so `length + 1` fuel always suffices). -/
def membersAux : Nat → List Char → List (String × JVal) →
    Option (List (String × JVal) × List Char)
  | 0, _, _ => none
  | Nat.succ fuel, cs, acc =>
    match strLit (skipWs cs) with
    | none => none
    | some (k, r1) =>
      match skipWs r1 with
      | ':' :: r2 =>
        match valLit (skipWs r2) with
        | none => none
        | some (v, r3) =>
          match skipWs r3 with
          | c :: r4 =>
            if c = ',' then membersAux fuel r4 (acc ++ [(k, v)])
            else if c = rbrace then some (acc ++ [(k, v)], r4)
            else none
          | [] => none
      | _ => none

/-- A flat JSON object. -/
def jsonParseObj (cs : List Char) : Option (List (String × JVal) × List Char) :=
  match skipWs cs with
  | c :: r =>
    if c = lbrace then
      match skipWs r with
      | c2 :: r2 =>
        if c2 = rbrace then some ([], r2)
        else membersAux (r.length + 1) r []
      | [] => none
    else none
  | [] => none

/-- JS property access on a decoded object: the last binding of a key
wins (as in `JSON.parse`); an absent key is `undefined`. -/
def propGet (ms : List (String × JVal)) (k : String) : Option JVal :=
  (ms.reverse.find? (fun m => m.1 == k)).map (fun m => m.2)

/-- `JSON.parse(line)` followed by reading `.status` and `.percent`,
on the modelled fragment.  A bare string/number literal is valid JSON
whose properties are all `undefined`; anything else fails to decode. -/
def jsonParseLine (s : String) : Option ProgressInfo :=
  let cs := s.toList
  match jsonParseObj cs with
  | some (ms, rest) =>
    if (skipWs rest).isEmpty then
      some { status := propGet ms "status", percent := propGet ms "percent" }
    else none
  | none =>
    match valLit (skipWs cs) with
    | some (_, rest) =>
      if (skipWs rest).isEmpty then some { status := none, percent := none }
      else none
    | none => none

/-! ### The stdout progress handler (`video-processor.js`, lines 68–90) -/

/-- The emission decision on a decoded payload (`video-processor.js`
lines 78–82): emit `parseFloat(percent)` iff `status === 'downloading'`,
`percent` is truthy and the parse is not `NaN`. -/
def emitOfInfo (info : ProgressInfo) : Option ℚ :=
  if info.status = some (JVal.jstr "downloading") ∧ truthy info.percent then
    match info.percent with
    | some v =>
      match parseFloatJS v with
      | some p => some p
      | none => none
    | none => none
  else none

/-- Handling of one segment of the split buffer (`video-processor.js`
lines 75–88): skip blank segments, try `JSON.parse` on the trimmed text,
discard silently (log only) on decode failure, otherwise apply the
emission decision. -/
def lineEmit (line : String) : Option ℚ :=
  if jsTrim line ≠ "" then
    match jsonParseLine (jsTrim line) with
    | some info => emitOfInfo info
    | none => none
  else none

/-- One iteration of the `for (const line of lines)` loop: extend the
emission record when the segment handling fires the callback. -/
def emitStep (acc : List ℚ) (line : String) : List ℚ :=
  match lineEmit line with
  | some p => acc ++ [p]
  | none => acc

/-- One `data` event of the stdout handler (`video-processor.js` lines
68–90): append the chunk to `progressData`, split the whole accumulated
buffer on newlines and run the per-segment handling over every segment,
collecting the values passed to `progressCallback` in order.  Returns
the new buffer and the emitted values. -/
def onStdoutData (progressData chunk : String) : String × List ℚ :=
  let buf := progressData ++ chunk
  let lines := jsSplitNewline buf
  (buf, lines.foldl emitStep [])

/-- All values passed to `progressCallback` over a sequence of `data`
events, starting from the empty buffer. -/
def processChunks (chunks : List String) : List ℚ :=
  (chunks.foldl (fun (st : String × List ℚ) c =>
    let r := onStdoutData st.1 c
    (r.1, st.2 ++ r.2)) (("", []) : String × List ℚ)).2

/-! ### The task registry (`TaskManager`, shipped inside `src/README.md`) -/

/-- The nested `result` object some updates carry. -/
structure ResultObj where
  rfilename : Option String
  rdownloadUrl : Option String
  rerror : Option String
  deriving Repr, DecidableEq

/-- The mutable, mergeable fields of a task record.  A JS object field
that is absent is `none`; `\x7b...task, ...updates\x7d` takes a field
from `updates` when present there, else from `task`.  (`taskId`,
`createdAt` and `updatedAt` are kept outside: no call site ever puts
them in an update map, and `updateTask` overwrites `updatedAt` itself.) -/
structure TaskFields where
  url : Option String
  quality : Option String
  kind : Option String
  status : Option String
  progress : Option Int
  filename : Option String
  downloadUrl : Option String
  errmsg : Option String
  result : Option ResultObj
  deriving Repr, DecidableEq

/-- The empty update map. -/
def noFields : TaskFields :=
  { url := none, quality := none, kind := none, status := none,
    progress := none, filename := none, downloadUrl := none,
    errmsg := none, result := none }

/-- Right-biased choice: the update's field when present, else the old
one — the per-field meaning of the JS object spread. -/
def ov {α : Type} (old upd : Option α) : Option α :=
  match upd with
  | some v => some v
  | none => old

/-- `\x7b...task, ...updates\x7d`, field by field. -/
def mergeFields (old upd : TaskFields) : TaskFields :=
  { url := ov old.url upd.url, quality := ov old.quality upd.quality,
    kind := ov old.kind upd.kind, status := ov old.status upd.status,
    progress := ov old.progress upd.progress,
    filename := ov old.filename upd.filename,
    downloadUrl := ov old.downloadUrl upd.downloadUrl,
    errmsg := ov old.errmsg upd.errmsg, result := ov old.result upd.result }

/-- One task record.  Timestamps are `Nat` models of the ISO strings,
compared as the code compares them via `new Date(...)`. -/
structure Task where
  taskId : String
  fields : TaskFields
  createdAt : Nat
  updatedAt : Nat
  deriving Repr, DecidableEq

/-- The `TaskManager` state: the `tasks` Map in insertion order, plus the
configured bound (`maxTasks`, default 100). -/
structure TaskManager where
  tasks : List Task
  maxTasks : Nat
  deriving Repr, DecidableEq

/-- A fresh manager. -/
def emptyTM (maxTasks : Nat) : TaskManager := { tasks := [], maxTasks := maxTasks }

/-- JS `Map.set`: replace in place when the key exists (keeping its
position in iteration order), else append. -/
def mapSet (ts : List Task) (t : Task) : List Task :=
  if ts.any (fun u => u.taskId == t.taskId) then
    ts.map (fun u => if u.taskId = t.taskId then t else u)
  else ts ++ [t]

/-- JS `Map.get`, as `getTask` uses it. -/
def mapGet (ts : List Task) (id : String) : Option Task :=
  ts.find? (fun u => u.taskId == id)

/-- JS `Map.delete` (keys are unique in a Map, so deleting by key is a
filter). -/
def mapDelete (ts : List Task) (id : String) : List Task :=
  ts.filter (fun u => u.taskId != id)

/-- Stable insertion of a task into a list sorted by `createdAt`
ascending: the new task goes after every entry with a key `≤` its own,
matching the stable `Array.prototype.sort` comparator
`new Date(a.createdAt) - new Date(b.createdAt)`. -/
def insertByCreated (t : Task) : List Task → List Task
  | [] => [t]
  | u :: us =>
    if t.createdAt < u.createdAt then t :: u :: us
    else u :: insertByCreated t us

/-- The stable ascending-`createdAt` sort `cleanupOldTasks` performs. -/
def sortByCreated (ts : List Task) : List Task := ts.foldr insertByCreated []

/-- `TaskManager.cleanupOldTasks`: when the live count exceeds
`maxTasks`, delete the `size - maxTasks` oldest-created entries. -/
def cleanupOldTasks (tm : TaskManager) : TaskManager :=
  if tm.tasks.length ≤ tm.maxTasks then tm
  else
    let sorted := sortByCreated tm.tasks
    let toRemove := sorted.take (tm.tasks.length - tm.maxTasks)
    { tm with tasks := toRemove.foldl (fun ts t => mapDelete ts t.taskId) tm.tasks }

/-- `TaskManager.createTask`: store the new record (uuid modelled as the
supplied fresh `newId`, `now` standing for `new Date().toISOString()`),
then apply the eviction policy; returns the id. -/
def createTask (tm : TaskManager) (now : Nat) (newId : String) (data : TaskFields) :
    String × TaskManager :=
  let t : Task := { taskId := newId, fields := data, createdAt := now, updatedAt := now }
  (newId, cleanupOldTasks { tm with tasks := mapSet tm.tasks t })

/-- `TaskManager.getTask`. -/
def getTask (tm : TaskManager) (id : String) : Option Task := mapGet tm.tasks id

/-- `TaskManager.updateTask`: `false` when the id is absent; otherwise
store the spread-merge of the old record and the updates with a fresh
`updatedAt`, and return `true`. -/
def updateTask (tm : TaskManager) (now : Nat) (id : String) (upd : TaskFields) :
    Bool × TaskManager :=
  match mapGet tm.tasks id with
  | none => (false, tm)
  | some t =>
    let merged : Task :=
      { taskId := t.taskId, fields := mergeFields t.fields upd,
        createdAt := t.createdAt, updatedAt := now }
    (true, { tm with tasks := mapSet tm.tasks merged })

/-- The hourly sweep body (`startCleanupTimer`): delete completed/failed
entries whose `updatedAt` lies more than `maxAge` in the past;
non-terminal entries are never touched. -/
def sweepOldTasks (tm : TaskManager) (now maxAge : Nat) : TaskManager :=
  let stale := tm.tasks.filter (fun t =>
    (t.fields.status == some "completed" || t.fields.status == some "failed")
      && decide (maxAge < now - t.updatedAt))
  { tm with tasks := stale.foldl (fun ts t => mapDelete ts t.taskId) tm.tasks }

/-! ### Exit classification and orchestration (`video-processor.js`
lines 99–145, `api.js` lines 150–191) -/

/-- The reject/resolve classification of a finished run, by the reject
path taken in `processVideo`. -/
inductive ErrKind where
  | emptyArtifact : String → ErrKind
  | processFailure : String → ErrKind
  | dependencyMissing : ErrKind
  | timedOut : ErrKind
  deriving Repr, DecidableEq

/-- How the `processVideo` promise settles. -/
inductive OrchResult where
  | resolved : String → Nat → OrchResult
  | rejected : ErrKind → OrchResult
  deriving Repr, DecidableEq

/-- The message of the `Error` each reject path constructs. -/
def errMessage : ErrKind → String
  | ErrKind.emptyArtifact cause => "Output file not found or empty: " ++ cause
  | ErrKind.processFailure _ => "yt-dlp process failed"
  | ErrKind.dependencyMissing => "yt-dlp is not installed or not in PATH"
  | ErrKind.timedOut => "Video download timeout (30 minutes)"

/-- The `close` handler of `processVideo` (lines 99–125): exit code 0
checks the artifact (`none` models `fs.stat` throwing because the file
is missing, `some size` its reported size); only a present, non-empty
artifact resolves the promise.  A nonzero exit rejects with the captured
stderr attached. -/
def closeOutcome (code : Int) (artifact : Option Nat) (errorOutput fn : String) :
    OrchResult :=
  if code = 0 then
    match artifact with
    | some size =>
      if 0 < size then OrchResult.resolved fn size
      else OrchResult.rejected (ErrKind.emptyArtifact "Downloaded file is empty")
    | none => OrchResult.rejected (ErrKind.emptyArtifact "no such file or directory")
  else OrchResult.rejected (ErrKind.processFailure errorOutput)

/-- The update map of `api.js` lines 152–156: enter processing at
progress 0. -/
def startFields : TaskFields :=
  { noFields with status := some "processing", progress := some 0 }

/-- The update map of the progress callback (`api.js` lines 159–164):
unconditionally status `processing` with the rounded signal. -/
def progressFields (p : ℚ) : TaskFields :=
  { noFields with status := some "processing", progress := some (jsRound p) }

/-- The terminal update map of `processVideoAsync` (lines 166–190):
completion data on resolve, failure data on reject. -/
def finishFields : OrchResult → TaskFields
  | OrchResult.resolved fn _ =>
    { noFields with
        status := some "completed",
        progress := some 100,
        filename := some fn,
        downloadUrl := some ("/api/download/" ++ fn),
        result := some { rfilename := some fn,
                         rdownloadUrl := some ("/api/download/" ++ fn),
                         rerror := none } }
  | OrchResult.rejected k =>
    { noFields with
        status := some "failed",
        errmsg := some (errMessage k),
        result := some { rfilename := none, rdownloadUrl := none,
                         rerror := some (errMessage k) } }

/-- The sequence of update maps a close-settled `processVideoAsync` run
issues for its task (the promise settles from the `close` handler, after
stdout is exhausted): enter processing, one progress update per emitted
signal, then exactly one terminal update.  On the timeout path this is
not the whole run: the stdout `data` handler is never detached, so data
events arriving after the timer's rejection issue further progress
updates behind the terminal one — see `timeoutRunUpdates`. -/
def orchUpdates (ps : List ℚ) (res : OrchResult) : List TaskFields :=
  startFields :: ps.map progressFields ++ [finishFields res]

/-- The update sequence observable on the timeout path
(`video-processor.js` lines 68–90 and 138–141 with `api.js` lines
150–191): the ceiling timer fires and rejects, the catch block records
the failed terminal update, and the still-attached stdout handler
forwards `qs` late progress signals, each issuing one more processing
update after the terminal one. -/
def timeoutRunUpdates (ps qs : List ℚ) : List TaskFields :=
  orchUpdates ps (OrchResult.rejected ErrKind.timedOut) ++ qs.map progressFields

/-- Apply a sequence of update maps to one task id through the registry,
timestamping the i-th update with `clock i`. -/
def applyUpdates (tm : TaskManager) (clock : Nat → Nat) (i : Nat) (id : String) :
    List TaskFields → TaskManager
  | [] => tm
  | u :: us => applyUpdates (updateTask tm (clock i) id u).2 clock (i + 1) id us

/-- The status field visible through `getTask` after each update of a
sequence, the value before the first update included. -/
def statusTrace (tm : TaskManager) (clock : Nat → Nat) (i : Nat) (id : String) :
    List TaskFields → List (Option String)
  | [] => [(getTask tm id).bind (fun t => t.fields.status)]
  | u :: us =>
    (getTask tm id).bind (fun t => t.fields.status)
      :: statusTrace (updateTask tm (clock i) id u).2 clock (i + 1) id us

/-- The task-creation call of `api.js` lines 37–42. -/
def apiCreateTask (tm : TaskManager) (now : Nat) (newId url quality : String) :
    String × TaskManager :=
  createTask tm now newId
    { noFields with
        url := some url,
        quality := some quality,
        kind := some "video",
        status := some "pending" }

/-! ### The timeout monitor (`video-processor.js` lines 137–145) -/

/-- State of one run's promise and timer: whether the 30-minute timer is
still armed, how many termination signals were sent, and how the promise
has settled (a promise settles at most once; later settles are no-ops). -/
structure MonitorState where
  timerActive : Bool
  sigCount : Nat
  settled : Bool
  result : Option OrchResult
  deriving Repr, DecidableEq

/-- Just after `spawn`: timer armed, no signal, promise pending. -/
def initMonitor : MonitorState :=
  { timerActive := true, sigCount := 0, settled := false, result := none }

/-- The timer callback (lines 138–141): if the timer is still armed it
fires once — `kill('SIGTERM')`, then reject `TimedOut` (a no-op if the
promise already settled); a fired or cleared timer never fires. -/
def onTimeout (s : MonitorState) : MonitorState :=
  if s.timerActive then
    { timerActive := false, sigCount := s.sigCount + 1, settled := true,
      result := if s.settled then s.result else some (OrchResult.rejected ErrKind.timedOut) }
  else s

/-- The two `close` handlers (lines 99–125 and 143–145): settle the
promise with the exit classification (a no-op if already settled) and
`clearTimeout` the ceiling timer. -/
def onClose (code : Int) (artifact : Option Nat) (errorOutput fn : String)
    (s : MonitorState) : MonitorState :=
  { timerActive := false, sigCount := s.sigCount, settled := true,
    result := if s.settled then s.result else some (closeOutcome code artifact errorOutput fn) }

/-! ### Registry lemmas -/

theorem mapGet_some_taskId (ts : List Task) (id : String) (t : Task)
    (h : mapGet ts id = some t) : t.taskId = id := by
  have h2 := List.find?_some h
  simpa using h2

theorem find?_replace_self (ts : List Task) (t : Task)
    (h : ts.any (fun u => u.taskId == t.taskId) = true) :
    List.find? (fun u => u.taskId == t.taskId)
      (ts.map (fun u => if u.taskId = t.taskId then t else u)) = some t := by
  induction ts with
  | nil => simp at h
  | cons u us ih =>
    by_cases hu : u.taskId = t.taskId
    · simp [hu]
    · have h2 : us.any (fun u => u.taskId == t.taskId) = true := by
        simpa [hu] using h
      simpa [hu] using ih h2

theorem find?_replace_other (ts : List Task) (t : Task) (j : String) (hj : j ≠ t.taskId) :
    List.find? (fun u => u.taskId == j)
      (ts.map (fun u => if u.taskId = t.taskId then t else u))
      = List.find? (fun u => u.taskId == j) ts := by
  have htj : ¬ t.taskId = j := fun hh => hj hh.symm
  induction ts with
  | nil => simp
  | cons u us ih =>
    by_cases hu : u.taskId = t.taskId
    · have huj : ¬ u.taskId = j := by rw [hu]; exact htj
      simp only [List.map_cons, if_pos hu]
      rw [List.find?_cons_of_neg, List.find?_cons_of_neg]
      · exact ih
      · simpa using huj
      · simpa using htj
    · simp only [List.map_cons, if_neg hu]
      by_cases huj : u.taskId = j
      · rw [List.find?_cons_of_pos, List.find?_cons_of_pos] <;> simpa using huj
      · rw [List.find?_cons_of_neg, List.find?_cons_of_neg]
        · exact ih
        · simpa using huj
        · simpa using huj

theorem mapGet_mapSet_self (ts : List Task) (t : Task) :
    mapGet (mapSet ts t) t.taskId = some t := by
  unfold mapGet mapSet
  by_cases h : ts.any (fun u => u.taskId == t.taskId) = true
  · simpa [h] using find?_replace_self ts t h
  · have hall : ∀ x ∈ ts, ¬ x.taskId = t.taskId := by simpa using h
    have hn : List.find? (fun u => u.taskId == t.taskId) ts = none := by
      rw [List.find?_eq_none]
      intro x hx
      simpa using hall x hx
    simp [h, List.find?_append, hn]

theorem mapGet_mapSet_other (ts : List Task) (t : Task) (j : String) (hj : j ≠ t.taskId) :
    mapGet (mapSet ts t) j = mapGet ts j := by
  unfold mapGet mapSet
  by_cases h : ts.any (fun u => u.taskId == t.taskId) = true
  · simpa [h] using find?_replace_other ts t j hj
  · have ht : ¬ t.taskId = j := fun hh => hj hh.symm
    simp [h, List.find?_append, ht]

theorem foldl_emitStep_eq_filterMap (l : List String) (acc : List ℚ) :
    l.foldl emitStep acc = acc ++ l.filterMap lineEmit := by
  induction l generalizing acc with
  | nil => simp
  | cons x xs ih => cases hx : lineEmit x <;> simp [emitStep, hx, ih]

theorem updateTask_present (tm : TaskManager) (now : Nat) (id : String)
    (upd : TaskFields) (t : Task) (h : getTask tm id = some t) :
    (updateTask tm now id upd).1 = true ∧
    getTask (updateTask tm now id upd).2 id =
      some { taskId := t.taskId, fields := mergeFields t.fields upd,
             createdAt := t.createdAt, updatedAt := now } ∧
    ∀ j, j ≠ id → getTask (updateTask tm now id upd).2 j = getTask tm j := by
  have hid := mapGet_some_taskId tm.tasks id t h
  have hmatch : mapGet tm.tasks id = some t := h
  unfold updateTask
  rw [hmatch]
  refine ⟨rfl, ?_, ?_⟩
  · show mapGet (mapSet tm.tasks _) id = _
    have := mapGet_mapSet_self tm.tasks
      { taskId := t.taskId, fields := mergeFields t.fields upd,
        createdAt := t.createdAt, updatedAt := now }
    simpa [hid] using this
  · intro j hj
    show mapGet (mapSet tm.tasks _) j = mapGet tm.tasks j
    exact mapGet_mapSet_other tm.tasks _ j (by simpa [hid] using hj)

theorem updateTask_absent (tm : TaskManager) (now : Nat) (id : String)
    (upd : TaskFields) (h : getTask tm id = none) :
    updateTask tm now id upd = (false, tm) := by
  have hmatch : mapGet tm.tasks id = none := h
  unfold updateTask
  rw [hmatch]

/-! ### Claim theorems -/

/-- C6: `updateTask` on an id absent from the registry returns `false`
rather than raising, creates no new entry and leaves every other record
unchanged (the whole state is untouched); on a present id it stores the
field-wise merge of the old record and the update map with a fresh
`updatedAt`, returns `true`, and leaves every other id's record
unchanged. -/
theorem updateTask_contract (tm : TaskManager) (now : Nat) (id : String)
    (upd : TaskFields) :
    (getTask tm id = none → updateTask tm now id upd = (false, tm)) ∧
    (∀ t, getTask tm id = some t →
      (updateTask tm now id upd).1 = true ∧
      getTask (updateTask tm now id upd).2 id =
        some { taskId := t.taskId, fields := mergeFields t.fields upd,
               createdAt := t.createdAt, updatedAt := now } ∧
      ∀ j, j ≠ id → getTask (updateTask tm now id upd).2 j = getTask tm j) :=
  ⟨fun h => updateTask_absent tm now id upd h,
   fun t h => updateTask_present tm now id upd t h⟩

/-- Witness for C6 at a concrete registry: one task `"a"`; updating the
absent id `"b"` returns `false` and changes nothing, updating `"a"`
succeeds. -/
theorem updateTask_contract_witness :
    (updateTask ((apiCreateTask (emptyTM 100) 0 "a" "u" "720p").2) 5 "b" startFields
        = (false, (apiCreateTask (emptyTM 100) 0 "a" "u" "720p").2)) ∧
    (updateTask ((apiCreateTask (emptyTM 100) 0 "a" "u" "720p").2) 5 "a" startFields).1
        = true := by
  constructor
  · exact (updateTask_contract _ 5 "b" startFields).1 (by decide)
  · exact (((updateTask_contract _ 5 "a" startFields).2
      { taskId := "a",
        fields := { url := some "u", quality := some "720p", kind := some "video",
                    status := some "pending", progress := none, filename := none,
                    downloadUrl := none, errmsg := none, result := none },
        createdAt := 0, updatedAt := 0 } (by decide))).1

/-- C9: `updateTask` replaces a present record with the field-wise merge
plus a fresh `updatedAt` unconditionally — it reads nothing but the id,
so the task's current status imposes no guard; in particular the call
sequence below drives a task from `completed` back to `processing`
through the registry alone. -/
theorem updateTask_no_state_guard :
    (∀ (tm : TaskManager) (now : Nat) (id : String) (upd : TaskFields) (t : Task),
      getTask tm id = some t →
      (updateTask tm now id upd).1 = true ∧
      getTask (updateTask tm now id upd).2 id =
        some { taskId := t.taskId, fields := mergeFields t.fields upd,
               createdAt := t.createdAt, updatedAt := now }) ∧
    (((getTask (updateTask ((apiCreateTask (emptyTM 100) 0 "a" "u" "720p").2) 1 "a"
          (finishFields (OrchResult.resolved "f.mp4" 5))).2 "a").bind
        (fun t => t.fields.status) = some "completed") ∧
     ((getTask (updateTask (updateTask ((apiCreateTask (emptyTM 100) 0 "a" "u" "720p").2)
            1 "a" (finishFields (OrchResult.resolved "f.mp4" 5))).2 2 "a" startFields).2
          "a").bind (fun t => t.fields.status) = some "processing")) := by
  refine ⟨fun tm now id upd t h => ?_, by decide, by decide⟩
  obtain ⟨h1, h2, _⟩ := updateTask_present tm now id upd t h
  exact ⟨h1, h2⟩

/-- Witness for C9: the unconditional-merge clause applied to the
one-task registry. -/
theorem updateTask_no_state_guard_witness :
    (updateTask ((apiCreateTask (emptyTM 100) 0 "a" "u" "720p").2) 7 "a"
        startFields).1 = true := by
  exact (updateTask_no_state_guard.1 ((apiCreateTask (emptyTM 100) 0 "a" "u" "720p").2)
    7 "a" startFields
    { taskId := "a",
      fields := { url := some "u", quality := some "720p", kind := some "video",
                  status := some "pending", progress := none, filename := none,
                  downloadUrl := none, errmsg := none, result := none },
      createdAt := 0, updatedAt := 0 } (by decide)).1

unseal Rat.add Rat.mul Rat.inv in
/-- C2 counterexample: the complete line below decodes to an
active-transfer payload whose percentage parses to 150; the handler
passes 150 to the progress callback even though 150 lies outside
[0,100] — the claimed range filter does not exist in the code. -/
theorem emit_out_of_range_counterexample :
    lineEmit "\x7b\"status\":\"downloading\",\"percent\":\"150\"\x7d" = some 150 ∧
    ¬ ((150 : ℚ) ≤ 100) := ⟨by decide, by norm_num⟩

/-- C2 amended: the handler emits a value to the progress callback iff
the payload's `status` is exactly the string `downloading` and its
`percent` field is present, truthy, and `parseFloat`s to a number (so
non-numeric percentages never reach the callback); the emitted value is
that parse, with no range filtering — values outside [0,100] are
emitted as-is. -/
theorem emitOfInfo_characterization (info : ProgressInfo) (p : ℚ) :
    emitOfInfo info = some p ↔
      info.status = some (JVal.jstr "downloading") ∧
      ∃ v, info.percent = some v ∧ truthy (some v) = true ∧ parseFloatJS v = some p := by
  unfold emitOfInfo
  constructor
  · intro he
    split_ifs at he with h
    · obtain ⟨h1, h2⟩ := h
      cases hv : info.percent with
      | none => rw [hv] at he; exact absurd he (by simp)
      | some v =>
        rw [hv] at he
        have h2v : truthy (some v) = true := by rw [hv] at h2; exact h2
        have he2 : (match parseFloatJS v with
          | some q => some q
          | none => none) = some p := he
        cases hp : parseFloatJS v with
        | none =>
          rw [hp] at he2
          have he3 : (none : Option ℚ) = some p := he2
          exact absurd he3 (by simp)
        | some q =>
          rw [hp] at he2
          have he3 : some q = some p := he2
          have hqp : q = p := by simpa using he3
          exact ⟨h1, v, rfl, h2v, by rw [hp, hqp]⟩
  · rintro ⟨h1, v, hv, htr, hp⟩
    have hc : info.status = some (JVal.jstr "downloading") ∧ truthy info.percent = true := by
      refine ⟨h1, ?_⟩
      rw [hv]
      exact htr
    rw [if_pos hc, hv]
    show (match parseFloatJS v with
      | some q => some q
      | none => none) = some p
    rw [hp]

unseal Rat.add Rat.mul Rat.inv in
/-- C10 counterexample: the complete line below decodes to a payload
with `status` `downloading` and `percent` the string `"0.0"`, which is
truthy; `parseFloat` gives 0 and the callback is invoked with 0 — so a
progress value of 0 can be emitted, contrary to the claim's
generalization. -/
theorem zero_emitted_counterexample :
    lineEmit "\x7b\"status\":\"downloading\",\"percent\":\"0.0\"\x7d" = some 0 := by
  decide

/-- C10 amended: when the decoded payload's `percent` field is the
number 0 or is absent, it is falsy, so the progress callback is not
invoked; but a string spelling of zero (such as `"0.0"`) is truthy and
does cause 0 to be emitted, so "0 is never emitted" does not hold in
general. -/
theorem zero_number_or_absent_percent_silent (info : ProgressInfo)
    (h : info.percent = none ∨ info.percent = some (JVal.jnum 0)) :
    emitOfInfo info = none := by
  unfold emitOfInfo
  rcases h with h | h <;> rw [h] <;> simp [truthy]

/-- Witness for the amended C10 at a concrete payload carrying the
number 0. -/
theorem zero_number_percent_silent_witness :
    emitOfInfo { status := some (JVal.jstr "downloading"),
                 percent := some (JVal.jnum 0) } = none :=
  zero_number_or_absent_percent_silent
    { status := some (JVal.jstr "downloading"), percent := some (JVal.jnum 0) }
    (Or.inr rfl)

unseal Rat.add Rat.mul Rat.inv in
/-- C3 counterexample: first, a single chunk containing no newline at
all — under the claim no line is complete, so nothing may be decoded —
yet the handler decodes the partial trailing segment and emits 50;
second, two newline-terminated lines delivered as two chunks make the
handler re-decode the first (already complete and already handled) line
when the second chunk arrives, emitting 50 twice. -/
theorem decode_before_newline_counterexample :
    (("\x7b\"status\":\"downloading\",\"percent\":\"50\"\x7d".toList.contains '\n')
        = false ∧
      processChunks ["\x7b\"status\":\"downloading\",\"percent\":\"50\"\x7d"] = [50]) ∧
    processChunks ["\x7b\"status\":\"downloading\",\"percent\":\"50\"\x7d\n",
        "\x7b\"status\":\"downloading\",\"percent\":\"60\"\x7d\n"] = [50, 50, 60] := by
  exact ⟨⟨by decide, by decide⟩, by decide⟩

/-- C3 amended: on each `data` event the handler appends the chunk to
the cumulative buffer (which is never trimmed), re-splits the entire
buffer on newlines, and runs the decode-and-emit step on every segment —
including the partial trailing segment and segments already handled on
earlier events; a segment whose trimmed text fails structured decode is
discarded silently, producing no emission. -/
theorem onStdoutData_rescans_buffer (buf chunk : String) :
    onStdoutData buf chunk
      = (buf ++ chunk, (jsSplitNewline (buf ++ chunk)).filterMap lineEmit) ∧
    ∀ line : String, jsonParseLine (jsTrim line) = none → lineEmit line = none := by
  constructor
  · show (buf ++ chunk, List.foldl emitStep [] (jsSplitNewline (buf ++ chunk)))
      = (buf ++ chunk, (jsSplitNewline (buf ++ chunk)).filterMap lineEmit)
    rw [foldl_emitStep_eq_filterMap]
    simp
  · intro line h
    unfold lineEmit
    split_ifs with hb
    · rw [h]
    · rfl

/-- Witness for the amended C3: a human-readable yt-dlp log line fails
decode and is silently discarded. -/
theorem onStdoutData_rescans_buffer_witness :
    lineEmit "[download] Destination: video.mp4" = none :=
  (onStdoutData_rescans_buffer "" "").2 "[download] Destination: video.mp4" (by decide)

unseal Rat.add Rat.mul Rat.inv in
/-- C4 counterexample: a task whose recorded progress is 50 receives the
progress-callback update for a signal of 30; the registry record drops
to 30 while the status stays `processing`, so the smaller signal is
applied, not dropped, and a poller observes a decreasing sequence. -/
theorem progress_decrease_counterexample :
    ((getTask (updateTask (updateTask ((apiCreateTask (emptyTM 100) 0 "a" "u" "720p").2)
          1 "a" startFields).2 2 "a" (progressFields 50)).2 "a").bind
        (fun t => t.fields.progress) = some 50) ∧
    ((getTask (updateTask (updateTask (updateTask
          ((apiCreateTask (emptyTM 100) 0 "a" "u" "720p").2)
          1 "a" startFields).2 2 "a" (progressFields 50)).2 3 "a"
          (progressFields 30)).2 "a").bind
        (fun t => t.fields.status) = some "processing") ∧
    ((getTask (updateTask (updateTask (updateTask
          ((apiCreateTask (emptyTM 100) 0 "a" "u" "720p").2)
          1 "a" startFields).2 2 "a" (progressFields 50)).2 3 "a"
          (progressFields 30)).2 "a").bind
        (fun t => t.fields.progress) = some 30) ∧
    (30 : Int) < 50 := by
  exact ⟨by decide, by decide, by decide, by decide⟩

/-- C4 amended: the progress callback applies every signal
unconditionally — after the update the record's progress is the rounded
incoming signal whatever the previous value was (in particular when the
signal is smaller), so the observable progress sequence while
`processing` is not guaranteed non-decreasing. -/
theorem progress_update_overwrites (tm : TaskManager) (now : Nat) (id : String)
    (p : ℚ) (t : Task) (h : getTask tm id = some t) :
    ((getTask (updateTask tm now id (progressFields p)).2 id).bind
        fun u => u.fields.progress) = some (jsRound p) ∧
    ((getTask (updateTask tm now id (progressFields p)).2 id).bind
        fun u => u.fields.status) = some "processing" := by
  obtain ⟨-, h2, -⟩ := updateTask_present tm now id (progressFields p) t h
  rw [h2]
  simp [mergeFields, progressFields, noFields, ov]

unseal Rat.add Rat.mul Rat.inv in
/-- Witness for the amended C4: the overwrite applied to a task whose
progress is already 50, with the smaller signal 30. -/
theorem progress_update_overwrites_witness :
    ((getTask (updateTask (updateTask (updateTask
          ((apiCreateTask (emptyTM 100) 0 "a" "u" "720p").2)
          1 "a" startFields).2 2 "a" (progressFields 50)).2 3 "a"
          (progressFields 30)).2 "a").bind
        fun u => u.fields.progress) = some (jsRound 30) := by
  exact (progress_update_overwrites _ 3 "a" 30
    { taskId := "a",
      fields := { url := some "u", quality := some "720p", kind := some "video",
                  status := some "processing", progress := some 50, filename := none,
                  downloadUrl := none, errmsg := none, result := none },
      createdAt := 0, updatedAt := 2 } (by decide)).1

/-- C8: in the event model of the monitor, if the ceiling fires before
the process exits, exactly one termination signal is sent, the outcome
settles as `TimedOut` (hence the terminal registry update marks the task
failed), and neither a second timer event nor the eventual process exit
adds a signal or changes the outcome; if instead the process exits
first, the timer is cleared — no signal is ever sent and a late timer
event is a no-op. -/
theorem timeout_ceiling_one_signal (code : Int) (artifact : Option Nat)
    (errOut fn : String) :
    ((onTimeout initMonitor).sigCount = 1 ∧
     (onTimeout initMonitor).result = some (OrchResult.rejected ErrKind.timedOut) ∧
     onTimeout (onTimeout initMonitor) = onTimeout initMonitor ∧
     (onClose code artifact errOut fn (onTimeout initMonitor)).sigCount = 1 ∧
     (onClose code artifact errOut fn (onTimeout initMonitor)).result
        = some (OrchResult.rejected ErrKind.timedOut) ∧
     (finishFields (OrchResult.rejected ErrKind.timedOut)).status = some "failed") ∧
    ((onClose code artifact errOut fn initMonitor).sigCount = 0 ∧
     (onClose code artifact errOut fn initMonitor).timerActive = false ∧
     onTimeout (onClose code artifact errOut fn initMonitor)
        = onClose code artifact errOut fn initMonitor) := by
  refine ⟨⟨rfl, rfl, ?_, rfl, rfl, rfl⟩, rfl, rfl, ?_⟩
  · simp [onTimeout, initMonitor]
  · simp [onTimeout, onClose]

/-! ### Orchestration lemmas (singleton registry) -/

/-- The record `updateTask` stores for a present task. -/
def mergedTask (t : Task) (u : TaskFields) (now : Nat) : Task :=
  { taskId := t.taskId, fields := mergeFields t.fields u, createdAt := t.createdAt,
    updatedAt := now }

theorem updateTask_singleton (t : Task) (M now : Nat) (id : String)
    (upd : TaskFields) (hid : t.taskId = id) :
    updateTask { tasks := [t], maxTasks := M } now id upd =
      (true, { tasks := [mergedTask t upd now], maxTasks := M }) := by
  unfold updateTask
  have hget : mapGet [t] id = some t := by simp [mapGet, hid]
  rw [show mapGet { tasks := [t], maxTasks := M : TaskManager }.tasks id = some t from hget]
  simp [mapSet, mergedTask, hid]

theorem applyUpdates_singleton (M : Nat) (id : String) :
    ∀ (us : List TaskFields) (t : Task), t.taskId = id →
    ∀ (clock : Nat → Nat) (i : Nat),
    ∃ upT, applyUpdates { tasks := [t], maxTasks := M } clock i id us =
      { tasks := [{ taskId := t.taskId, fields := us.foldl mergeFields t.fields,
                    createdAt := t.createdAt, updatedAt := upT }], maxTasks := M } := by
  intro us
  induction us with
  | nil =>
    intro t hid clock i
    exact ⟨t.updatedAt, rfl⟩
  | cons u us ih =>
    intro t hid clock i
    have step := updateTask_singleton t M (clock i) id u hid
    have hid2 : (mergedTask t u (clock i)).taskId = id := hid
    obtain ⟨upT, hrec⟩ := ih (mergedTask t u (clock i)) hid2 clock (i + 1)
    refine ⟨upT, ?_⟩
    show applyUpdates (updateTask { tasks := [t], maxTasks := M } (clock i) id u).2
      clock (i + 1) id us = _
    rw [step]
    exact hrec

theorem statusTrace_singleton (M : Nat) (id : String) :
    ∀ (us : List TaskFields), (∀ u ∈ us, u.status.isSome) →
    ∀ (t : Task), t.taskId = id → ∀ (clock : Nat → Nat) (i : Nat),
    statusTrace { tasks := [t], maxTasks := M } clock i id us =
      t.fields.status :: us.map (fun u => u.status) := by
  intro us
  induction us with
  | nil =>
    intro _ t hid clock i
    have hget : mapGet [t] id = some t := by simp [mapGet, hid]
    show [(getTask { tasks := [t], maxTasks := M } id).bind (fun u => u.fields.status)] = _
    simp [getTask, hget]
  | cons u us ih =>
    intro hsome t hid clock i
    have hget : mapGet [t] id = some t := by simp [mapGet, hid]
    have step := updateTask_singleton t M (clock i) id u hid
    have hid2 : (mergedTask t u (clock i)).taskId = id := hid
    have hus : ∀ w ∈ us, w.status.isSome := fun w hw => hsome w (List.mem_cons_of_mem u hw)
    have hrec := ih hus (mergedTask t u (clock i)) hid2 clock (i + 1)
    show (getTask { tasks := [t], maxTasks := M } id).bind (fun w => w.fields.status)
        :: statusTrace (updateTask { tasks := [t], maxTasks := M } (clock i) id u).2
          clock (i + 1) id us = _
    rw [step]
    rw [hrec]
    have hu : (mergedTask t u (clock i)).fields.status = u.status := by
      obtain ⟨s, hs⟩ := Option.isSome_iff_exists.mp (hsome u (List.mem_cons_self u us))
      simp [mergedTask, mergeFields, ov, hs]
    rw [hu]
    simp [getTask, hget]

/-- The record `apiCreateTask` stores. -/
def initialTask (t0 : Nat) (id url q : String) : Task :=
  { taskId := id,
    fields := { url := some url,
                quality := some q,
                kind := some "video",
                status := some "pending",
                progress := none,
                filename := none,
                downloadUrl := none,
                errmsg := none,
                result := none },
    createdAt := t0,
    updatedAt := t0 }

theorem apiCreateTask_empty (M t0 : Nat) (id url q : String) (h : 1 ≤ M) :
    (apiCreateTask (emptyTM M) t0 id url q).2 =
      { tasks := [initialTask t0 id url q], maxTasks := M } := by
  simp [apiCreateTask, createTask, cleanupOldTasks, mapSet, emptyTM, noFields, h,
    initialTask]

theorem orchUpdates_status_all_some (ps : List ℚ) (res : OrchResult) :
    ∀ u ∈ orchUpdates ps res, u.status.isSome := by
  intro u hu
  unfold orchUpdates at hu
  rcases List.mem_cons.mp hu with h | h
  · subst h; simp [startFields]
  · rcases List.mem_append.mp h with h2 | h2
    · obtain ⟨p, hp, rfl⟩ := List.mem_map.mp h2
      simp [progressFields]
    · have hu2 : u = finishFields res := by simpa using h2
      subst hu2
      cases res <;> simp [finishFields]

theorem map_progressFields_status (ps : List ℚ) :
    List.map ((fun (u : TaskFields) => u.status) ∘ progressFields) ps
      = List.replicate ps.length (some "processing") := by
  induction ps with
  | nil => rfl
  | cons p ps ih => simp [progressFields, ih, List.replicate_succ]

unseal Rat.add Rat.mul Rat.inv in
/-- C1 counterexample: on the timeout path the stdout `data` handler is
never detached (`video-processor.js` lines 68–90 and 138–141), so after
the catch block's failed update (`api.js` lines 183–189) a late
progress line still drives the callback of `api.js` lines 159–164: the
task observably reads `failed` and then `processing` again — a later
operation of the run changes a terminal status, refuting the claim that
no operation after completed/failed changes the record. -/
theorem late_progress_after_failed_counterexample :
    ((getTask (updateTask (updateTask (updateTask
          ((apiCreateTask (emptyTM 100) 0 "a" "u" "720p").2)
          1 "a" startFields).2 2 "a" (progressFields 50)).2 3 "a"
          (finishFields (OrchResult.rejected ErrKind.timedOut))).2 "a").bind
        (fun t => t.fields.status) = some "failed") ∧
    ((getTask (updateTask (updateTask (updateTask (updateTask
          ((apiCreateTask (emptyTM 100) 0 "a" "u" "720p").2)
          1 "a" startFields).2 2 "a" (progressFields 50)).2 3 "a"
          (finishFields (OrchResult.rejected ErrKind.timedOut))).2 4 "a"
          (progressFields 60)).2 "a").bind
        (fun t => t.fields.status) = some "processing") := by
  exact ⟨by decide, by decide⟩

/-- C1 amended: for a close-settled run the sequence of `status` values
a poller can observe through the registry is exactly `pending`, then
`processing` (repeated), then a single terminal value — `completed` on
a resolved outcome, `failed` on a rejected one — as the run's last
operation, and no other order is observable; on the timeout path,
however, every late progress signal forwarded after the failed update
is observable as a further `processing` value, so the terminal status
is overwritten again whenever at least one late signal arrives —
terminality holds only in the absence of stdout data events after
settlement. -/
theorem status_trace_characterization (ps qs : List ℚ) (res : OrchResult)
    (clock : Nat → Nat) (t0 : Nat) (id url q : String) :
    (statusTrace (apiCreateTask (emptyTM 100) t0 id url q).2 clock 0 id
        (orchUpdates ps res) =
      some "pending" :: List.replicate (ps.length + 1) (some "processing")
        ++ [(finishFields res).status]) ∧
    ((finishFields res).status = some (match res with
      | OrchResult.resolved _ _ => "completed"
      | OrchResult.rejected _ => "failed")) ∧
    (statusTrace (apiCreateTask (emptyTM 100) t0 id url q).2 clock 0 id
        (timeoutRunUpdates ps qs) =
      some "pending" :: List.replicate (ps.length + 1) (some "processing")
        ++ some "failed" :: List.replicate qs.length (some "processing")) := by
  refine ⟨?_, ?_, ?_⟩
  · rw [apiCreateTask_empty 100 t0 id url q (by norm_num)]
    rw [statusTrace_singleton 100 id (orchUpdates ps res)
      (orchUpdates_status_all_some ps res) (initialTask t0 id url q) rfl clock 0]
    unfold orchUpdates
    simp only [initialTask, startFields, progressFields, List.replicate_succ,
      List.map_cons, List.map_append, List.map_map]
    simp [map_progressFields_status ps]
  · cases res <;> simp [finishFields]
  · rw [apiCreateTask_empty 100 t0 id url q (by norm_num)]
    have hall : ∀ u ∈ timeoutRunUpdates ps qs, u.status.isSome := by
      intro u hu
      unfold timeoutRunUpdates at hu
      rcases List.mem_append.mp hu with h | h
      · exact orchUpdates_status_all_some ps (OrchResult.rejected ErrKind.timedOut) u h
      · obtain ⟨p, hp, rfl⟩ := List.mem_map.mp h
        simp [progressFields]
    rw [statusTrace_singleton 100 id (timeoutRunUpdates ps qs) hall
      (initialTask t0 id url q) rfl clock 0]
    unfold timeoutRunUpdates orchUpdates
    simp only [initialTask, startFields, List.replicate_succ, List.map_cons,
      List.map_append, List.map_map]
    simp [map_progressFields_status ps, map_progressFields_status qs, finishFields]

theorem orch_final_status (ps : List ℚ) (res : OrchResult) (clock : Nat → Nat)
    (t0 : Nat) (id url q : String) :
    (getTask (applyUpdates (apiCreateTask (emptyTM 100) t0 id url q).2 clock 0 id
        (orchUpdates ps res)) id).bind (fun t => t.fields.status)
      = (finishFields res).status := by
  rw [apiCreateTask_empty 100 t0 id url q (by norm_num)]
  obtain ⟨upT, hfin⟩ := applyUpdates_singleton 100 id (orchUpdates ps res)
    (initialTask t0 id url q) rfl clock 0
  rw [hfin]
  have hone : orchUpdates ps res = (startFields :: ps.map progressFields)
      ++ [finishFields res] := by
    simp [orchUpdates]
  have hstat : ((orchUpdates ps res).foldl mergeFields
      (initialTask t0 id url q).fields).status = (finishFields res).status := by
    rw [hone, List.foldl_append]
    cases res <;> simp [finishFields, mergeFields, ov]
  have htid : (initialTask t0 id url q).taskId = id := rfl
  simp [getTask, mapGet, htid, hstat]

/-- C7: across a full orchestrated run, the task ends `completed` iff
the converter exited 0 and the output artifact is present with non-zero
size; in particular an exit code of 0 with a missing or zero-size
artifact classifies as the `EmptyArtifact` reject and the task ends
`failed`, never `completed`. -/
theorem completed_requires_nonempty_artifact (code : Int) (artifact : Option Nat)
    (errOut fn url q id : String) (ps : List ℚ) (clock : Nat → Nat) (t0 : Nat) :
    (((getTask (applyUpdates (apiCreateTask (emptyTM 100) t0 id url q).2 clock 0 id
          (orchUpdates ps (closeOutcome code artifact errOut fn))) id).bind
        (fun t => t.fields.status) = some "completed") ↔
      (code = 0 ∧ ∃ s, artifact = some s ∧ 0 < s)) ∧
    ((code = 0 ∧ (artifact = none ∨ artifact = some 0)) →
      (∃ cause, closeOutcome code artifact errOut fn
          = OrchResult.rejected (ErrKind.emptyArtifact cause)) ∧
      ((getTask (applyUpdates (apiCreateTask (emptyTM 100) t0 id url q).2 clock 0 id
          (orchUpdates ps (closeOutcome code artifact errOut fn))) id).bind
        (fun t => t.fields.status) = some "failed")) := by
  have hst := orch_final_status ps (closeOutcome code artifact errOut fn) clock t0 id url q
  constructor
  · rw [hst]
    unfold closeOutcome
    split_ifs with hc
    · cases artifact with
      | none => simp [finishFields]
      | some sz =>
        by_cases hsz : 0 < sz
        · simp [hsz, finishFields, hc]
        · simp [hsz, finishFields, hc]
    · simp [finishFields, hc]
  · rintro ⟨hc, hart⟩
    rcases hart with hart | hart <;>
      · subst hart
        subst hc
        refine ⟨⟨_, rfl⟩, ?_⟩
        rw [hst]
        simp [closeOutcome, finishFields]

/-- Witness for C7 at exit code 0 with a present zero-byte artifact. -/
theorem completed_requires_nonempty_artifact_witness :
    (∃ cause, closeOutcome 0 (some 0) "" "f.mp4"
        = OrchResult.rejected (ErrKind.emptyArtifact cause)) ∧
    ((getTask (applyUpdates (apiCreateTask (emptyTM 100) 0 "a" "u" "720p").2
        (fun i => i + 1) 0 "a" (orchUpdates [] (closeOutcome 0 (some 0) "" "f.mp4")))
        "a").bind (fun t => t.fields.status) = some "failed") :=
  (completed_requires_nonempty_artifact 0 (some 0) "" "f.mp4" "u" "720p" "a" []
    (fun i => i + 1) 0).2 ⟨rfl, Or.inr rfl⟩

/-! ### Eviction lemmas -/

/-- One creation request: the fresh uuid, the creation instant and the
`taskData` passed to `createTask`. -/
structure CreateReq where
  reqId : String
  time : Nat
  data : TaskFields
  deriving Repr, DecidableEq

/-- Run `createTask` over a sequence of requests. -/
def createMany (tm : TaskManager) : List CreateReq → TaskManager
  | [] => tm
  | r :: rs => createMany (createTask tm r.time r.reqId r.data).2 rs

/-- The record a request creates. -/
def mkTask (r : CreateReq) : Task :=
  { taskId := r.reqId, fields := r.data, createdAt := r.time, updatedAt := r.time }

theorem mapSet_fresh (ts : List Task) (t : Task)
    (h : ∀ u ∈ ts, u.taskId ≠ t.taskId) :
    mapSet ts t = ts ++ [t] := by
  have hany : ts.any (fun u => u.taskId == t.taskId) = false := by
    rw [List.any_eq_false]
    intro u hu
    simpa using h u hu
  simp [mapSet, hany]

theorem insertByCreated_head_lt (t u : Task) (us : List Task)
    (h : t.createdAt < u.createdAt) :
    insertByCreated t (u :: us) = t :: u :: us := by
  simp [insertByCreated, h]

theorem sortByCreated_sorted_id (ts : List Task)
    (h : List.Pairwise (fun a b => a.createdAt < b.createdAt) ts) :
    sortByCreated ts = ts := by
  induction ts with
  | nil => rfl
  | cons t ts ih =>
    have h1 := (List.pairwise_cons.mp h).1
    have h2 := (List.pairwise_cons.mp h).2
    show insertByCreated t (sortByCreated ts) = t :: ts
    rw [ih h2]
    cases ts with
    | nil => rfl
    | cons u us => exact insertByCreated_head_lt t u us (h1 u (List.mem_cons_self u us))

theorem mapDelete_cons_self (t : Task) (ts : List Task)
    (h : t.taskId ∉ ts.map Task.taskId) :
    mapDelete (t :: ts) t.taskId = ts := by
  unfold mapDelete
  rw [List.filter_cons]
  have hhead : ((t.taskId != t.taskId) = true) = False := by simp
  simp only [hhead, if_false]
  rw [List.filter_eq_self]
  intro u hu
  have : u.taskId ≠ t.taskId := by
    intro he
    exact h (he ▸ List.mem_map_of_mem Task.taskId hu)
  simpa using this

theorem foldl_delete_take :
    ∀ (ts : List Task), (ts.map Task.taskId).Nodup → ∀ (k : Nat),
    (ts.take k).foldl (fun acc u => mapDelete acc u.taskId) ts = ts.drop k := by
  intro ts
  induction ts with
  | nil => intro _ k; simp
  | cons t ts ih =>
    intro hnodup k
    have hhead : t.taskId ∉ ts.map Task.taskId := (List.nodup_cons.mp hnodup).1
    have htail : (ts.map Task.taskId).Nodup := (List.nodup_cons.mp hnodup).2
    cases k with
    | zero => simp
    | succ k =>
      rw [List.take_succ_cons, List.foldl_cons, mapDelete_cons_self t ts hhead]
      rw [List.drop_succ_cons]
      exact ih htail k

theorem cleanup_sorted (ts : List Task) (M : Nat)
    (hsorted : List.Pairwise (fun a b => a.createdAt < b.createdAt) ts)
    (hnodup : (ts.map Task.taskId).Nodup) :
    cleanupOldTasks { tasks := ts, maxTasks := M } =
      { tasks := ts.drop (ts.length - M), maxTasks := M } := by
  unfold cleanupOldTasks
  by_cases h : ts.length ≤ M
  · simp [h, Nat.sub_eq_zero_of_le h]
  · simp only [h, if_false]
    rw [sortByCreated_sorted_id ts hsorted]
    rw [foldl_delete_take ts hnodup (ts.length - M)]

theorem createMany_inv (M : Nat) :
    ∀ (rs : List CreateReq) (cur : List Task),
    List.Pairwise (fun a b => a.createdAt < b.createdAt) (cur ++ rs.map mkTask) →
    ((cur ++ rs.map mkTask).map Task.taskId).Nodup →
    cur.length ≤ M →
    createMany { tasks := cur, maxTasks := M } rs =
      { tasks := (cur ++ rs.map mkTask).drop ((cur.length + rs.length) - M),
        maxTasks := M } := by
  intro rs
  induction rs with
  | nil =>
    intro cur _ _ hlen
    simp [createMany, Nat.sub_eq_zero_of_le hlen]
  | cons r rs ih =>
    intro cur hsorted hnodup hlen
    have hassoc : cur ++ (r :: rs).map mkTask = (cur ++ [mkTask r]) ++ rs.map mkTask := by
      simp
    rw [hassoc] at hsorted hnodup
    have hsubA : List.Sublist (cur ++ [mkTask r]) ((cur ++ [mkTask r]) ++ rs.map mkTask) :=
      List.sublist_append_left _ _
    have hsortedA := hsorted.sublist hsubA
    have hnodupA : ((cur ++ [mkTask r]).map Task.taskId).Nodup :=
      hnodup.sublist (hsubA.map Task.taskId)
    have hfresh : ∀ u ∈ cur, u.taskId ≠ (mkTask r).taskId := by
      intro u hu he
      have hmem : u.taskId ∈ cur.map Task.taskId := List.mem_map_of_mem Task.taskId hu
      have hnA : (cur.map Task.taskId ++ [(mkTask r).taskId]).Nodup := by
        simpa using hnodupA
      have hdisj := (List.nodup_append.mp hnA).2.2
      exact hdisj hmem (by simp [he])
    have hset2 : mapSet cur
        { taskId := r.reqId, fields := r.data, createdAt := r.time,
          updatedAt := r.time } = cur ++ [mkTask r] := by
      have hf := mapSet_fresh cur (mkTask r) hfresh
      simpa [mkTask] using hf
    have hstep : (createTask { tasks := cur, maxTasks := M } r.time r.reqId r.data).2
        = cleanupOldTasks { tasks := cur ++ [mkTask r], maxTasks := M } := by
      show cleanupOldTasks
        { tasks := mapSet cur
            { taskId := r.reqId, fields := r.data, createdAt := r.time,
              updatedAt := r.time },
          maxTasks := M } = _
      rw [hset2]
    have hlenA : (cur ++ [mkTask r]).length = cur.length + 1 := by simp
    have hclean := cleanup_sorted (cur ++ [mkTask r]) M hsortedA hnodupA
    rw [hlenA] at hclean
    have hcur2len : ((cur ++ [mkTask r]).drop ((cur.length + 1) - M)).length ≤ M := by
      rw [List.length_drop, hlenA]
      omega
    have hsubB : List.Sublist
        (((cur ++ [mkTask r]).drop ((cur.length + 1) - M)) ++ rs.map mkTask)
        ((cur ++ [mkTask r]) ++ rs.map mkTask) :=
      (List.drop_sublist _ _).append_right _
    have hsorted2 := hsorted.sublist hsubB
    have hnodup2 : ((((cur ++ [mkTask r]).drop ((cur.length + 1) - M))
        ++ rs.map mkTask).map Task.taskId).Nodup :=
      hnodup.sublist (hsubB.map Task.taskId)
    have hrec := ih ((cur ++ [mkTask r]).drop ((cur.length + 1) - M))
      hsorted2 hnodup2 hcur2len
    show createMany (createTask { tasks := cur, maxTasks := M } r.time r.reqId r.data).2 rs
      = _
    rw [hstep, hclean, hrec]
    have hdlen : (cur.length + 1) - M ≤ (cur ++ [mkTask r]).length := by
      rw [hlenA]; omega
    have hdropcomp :
        (((cur ++ [mkTask r]).drop ((cur.length + 1) - M)) ++ rs.map mkTask).drop
            ((((cur ++ [mkTask r]).drop ((cur.length + 1) - M)).length + rs.length) - M)
          = ((cur ++ [mkTask r]) ++ rs.map mkTask).drop
            ((cur.length + (r :: rs).length) - M) := by
      rw [← List.drop_append_of_le_length hdlen]
      rw [List.drop_drop]
      congr 1
      rw [List.length_drop, hlenA]
      simp only [List.length_cons]
      omega
    rw [hdropcomp, ← hassoc]

/-- C5: after pushing `M + k` creation requests (`k ≥ 1`) through
`createTask` in strictly increasing creation order with pairwise
distinct ids — whatever status or other fields each request carries —
the registry holds exactly `M = maxTasks` records, namely the last `M`
requests in order; the `k` records evicted along the way are exactly the
`k` oldest by creation time. -/
theorem eviction_keeps_newest (M k : Nat) (rs : List CreateReq) (hk : 1 ≤ k)
    (hlen : rs.length = M + k)
    (hsorted : List.Pairwise (fun a b => a.time < b.time) rs)
    (hnodup : (rs.map CreateReq.reqId).Nodup) :
    (createMany (emptyTM M) rs).tasks = (rs.map mkTask).drop k ∧
    (createMany (emptyTM M) rs).tasks.length = M ∧
    (rs.map mkTask).take k ++ (createMany (emptyTM M) rs).tasks = rs.map mkTask := by
  have hs2 : List.Pairwise (fun a b => a.createdAt < b.createdAt)
      (([] : List Task) ++ rs.map mkTask) := by
    simp only [List.nil_append]
    exact List.Pairwise.map mkTask (fun a b h => h) hsorted
  have hn2 : ((([] : List Task) ++ rs.map mkTask).map Task.taskId).Nodup := by
    simp only [List.nil_append, List.map_map]
    simpa [Function.comp, mkTask] using hnodup
  have hmain := createMany_inv M rs [] hs2 hn2 (by simp)
  have hempty : emptyTM M = { tasks := ([] : List Task), maxTasks := M } := rfl
  rw [hempty, hmain]
  simp only [List.nil_append, List.length_nil, Nat.zero_add]
  have hkk : rs.length - M = k := by omega
  rw [hkk]
  refine ⟨rfl, ?_, ?_⟩
  · rw [List.length_drop, List.length_map, hlen]
    omega
  · exact List.take_append_drop k (rs.map mkTask)

/-- Witness for C5 with `maxTasks = 2` and three requests: the oldest
request `"a"` is evicted and `"b"`, `"c"` remain in order. -/
theorem eviction_keeps_newest_witness :
    (createMany (emptyTM 2) [⟨"a", 0, noFields⟩, ⟨"b", 1, noFields⟩,
        ⟨"c", 2, noFields⟩]).tasks
      = (([⟨"a", 0, noFields⟩, ⟨"b", 1, noFields⟩,
          ⟨"c", 2, noFields⟩] : List CreateReq).map mkTask).drop 1 ∧
    (createMany (emptyTM 2) [⟨"a", 0, noFields⟩, ⟨"b", 1, noFields⟩,
        ⟨"c", 2, noFields⟩]).tasks.length = 2 ∧
    (([⟨"a", 0, noFields⟩, ⟨"b", 1, noFields⟩,
        ⟨"c", 2, noFields⟩] : List CreateReq).map mkTask).take 1
      ++ (createMany (emptyTM 2) [⟨"a", 0, noFields⟩, ⟨"b", 1, noFields⟩,
          ⟨"c", 2, noFields⟩]).tasks
      = ([⟨"a", 0, noFields⟩, ⟨"b", 1, noFields⟩,
          ⟨"c", 2, noFields⟩] : List CreateReq).map mkTask :=
  eviction_keeps_newest 2 1
    [⟨"a", 0, noFields⟩, ⟨"b", 1, noFields⟩, ⟨"c", 2, noFields⟩]
    (by decide) (by decide) (by decide) (by decide)

end YtMp3
